import Mathlib

/-!
Verification of the prop-amm-challenge simulation core against its
natural-language specification.

The development shallowly embeds the Rust sources:

* `src/crates/sim/src/amm.rs` — the `BpfAmm` pool (reserves, 1024-byte
  storage, backend dispatch, quote/execute operations);
* `src/crates/cli/src/commands/run.rs` — native-library symbol loading;
* `src/crates/submission-sdk/src/lib.rs` — the strategy SDK `set_storage`.

Rust `f64` values are modelled by the inductive type `F64`: finite values
carry an exact rational, and the special values `inf`, `neginf` and `nan`
follow IEEE-754 comparison semantics (in particular `nan <= 0` is false).
Rounding of finite arithmetic is idealised as exact rational arithmetic;
no claim below depends on rounding, and every concrete witness uses values
whose f64 arithmetic is exact.

The executor crate (`prop_amm_executor`) and the shared helpers
(`prop_amm_shared::nano`) are not part of the given sources; they are
modelled from the spec where marked, and otherwise abstracted as arbitrary
behaviour functions so the theorems hold for every executor.

The pool carries an extra ghost field `trace` recording each executor
invocation (`exec`) and after-swap invocation (`afterSwap`).  It is pure
instrumentation: the source has no such field, and every `trace := ...`
update below sits exactly where `amm.rs` calls into the executor.  It lets
the theorems state "the executor is / is not invoked" observationally.
-/

namespace PropAmm

/-- Model of Rust `f64`: exact rationals for finite values plus the three
IEEE special values. -/
inductive F64 where
  | finite (q : ℚ)
  | inf
  | neginf
  | nan
deriving DecidableEq

namespace F64

/-- IEEE `<=` on the model: any comparison with `nan` is false. -/
def le : F64 → F64 → Bool
  | .nan, _ => false
  | _, .nan => false
  | .neginf, _ => true
  | _, .neginf => false
  | .finite a, .finite b => decide (a ≤ b)
  | .finite _, .inf => true
  | .inf, .inf => true
  | .inf, .finite _ => false

/-- IEEE `<` on the model: any comparison with `nan` is false. -/
def lt : F64 → F64 → Bool
  | .nan, _ => false
  | _, .nan => false
  | .neginf, .neginf => false
  | .neginf, _ => true
  | _, .neginf => false
  | .inf, _ => false
  | .finite _, .inf => true
  | .finite a, .finite b => decide (a < b)

/-- IEEE negation. -/
def neg : F64 → F64
  | .finite a => .finite (-a)
  | .inf => .neginf
  | .neginf => .inf
  | .nan => .nan

/-- IEEE addition on the model; finite addition is idealised as exact. -/
def add : F64 → F64 → F64
  | .nan, _ => .nan
  | _, .nan => .nan
  | .inf, .neginf => .nan
  | .neginf, .inf => .nan
  | .inf, _ => .inf
  | _, .inf => .inf
  | .neginf, _ => .neginf
  | _, .neginf => .neginf
  | .finite a, .finite b => .finite (a + b)

/-- IEEE subtraction on the model. -/
def sub (x y : F64) : F64 := add x (neg y)

/-- IEEE division on the model, needed for `spot_price`. -/
def div : F64 → F64 → F64
  | .nan, _ => .nan
  | _, .nan => .nan
  | .inf, .inf => .nan
  | .inf, .neginf => .nan
  | .neginf, .inf => .nan
  | .neginf, .neginf => .nan
  | .inf, .finite _ => .inf
  | .neginf, .finite _ => .neginf
  | .finite _, .inf => .finite 0
  | .finite _, .neginf => .finite 0
  | .finite a, .finite b =>
      if b = 0 then (if a = 0 then .nan else if a > 0 then .inf else .neginf)
      else .finite (a / b)

/-- The value is a finite non-negative rational. -/
def nonnegFin : F64 → Bool
  | .finite q => decide (0 ≤ q)
  | _ => false

/-- Both values finite and the first at most the second. -/
def fleB : F64 → F64 → Bool
  | .finite a, .finite b => decide (a ≤ b)
  | _, _ => false

end F64

/-- Modelled from the spec: `f64_to_nano` of crate `prop_amm_shared::nano`
(not under `src/`): "if `x ≤ 0` or non-finite → 0; else `floor(x · 10⁹)`
clamped to u64". -/
def f64_to_nano : F64 → ℕ
  | .finite q => if q ≤ 0 then 0 else min (Int.toNat ⌊q * 1000000000⌋) (2 ^ 64 - 1)
  | _ => 0

/-- Modelled from the spec: `nano_to_f64` of crate `prop_amm_shared::nano`
(not under `src/`): "`nano_to_f64(n) = n / 10⁹`" (division idealised as
exact). -/
def nano_to_f64 (n : ℕ) : F64 := .finite ((n : ℚ) / 1000000000)

/-- `STORAGE_SIZE` from `src/crates/submission-sdk/src/lib.rs` (re-exported
by `prop_amm_shared::instruction`). -/
def STORAGE_SIZE : ℕ := 1024

/-- Native swap handle: `fn(&[u8]) → u64` after unmarshalling, modelled as a
function of the decoded request `(side, input, rx, ry)` and the read-only
storage bytes. -/
def SwapFn : Type := ℕ → ℕ → ℕ → ℕ → List ℕ → ℕ

/-- Native after-swap handle: `fn(&[u8], &mut [u8])`, modelled as a function
of the decoded request and storage returning the updated storage. -/
def AfterSwapFn : Type := ℕ → ℕ → ℕ → ℕ → ℕ → List ℕ → List ℕ

/-- Modelled from the spec: a loaded BPF program of crate
`prop_amm_executor` (not under `src/`).  Its behaviour is abstracted as two
arbitrary functions over an abstract VM state (`ℕ`); `execute` may fail
(verifier/runtime fault, compute-unit exhaustion) and returns the u64
read from the return-data side channel; `execute_after_swap` may fail, and
per the spec a failure leaves storage untouched ("errors are swallowed
(no-op fallback)"). -/
structure BpfProgram where
  execFn : ℕ → ℕ → ℕ → ℕ → List ℕ → ℕ → Except Unit ℕ × ℕ
  afterFn : ℕ → ℕ → ℕ → ℕ → ℕ → List ℕ → ℕ → Except Unit (List ℕ) × ℕ

/-- Modelled from the spec: `BpfExecutor` of crate `prop_amm_executor` —
the shared program plus per-executor VM state. -/
structure BpfExecutor where
  program : BpfProgram
  vm : ℕ

/-- Modelled from the spec: `BpfExecutor::new(program)` starts with fresh
VM state. -/
def BpfExecutor.new (program : BpfProgram) : BpfExecutor :=
  { program := program, vm := 0 }

/-- Modelled from the spec: `NativeExecutor` of crate `prop_amm_executor` —
two function pointers, the after-swap one optional ("If `after_swap`
symbol is absent, executor treats it as a no-op"). -/
structure NativeExecutor where
  swap_fn : SwapFn
  after_swap_fn : Option AfterSwapFn

/-- `NativeExecutor::new(swap_fn, after_swap_fn)`. -/
def NativeExecutor.new (swap_fn : SwapFn) (after_swap_fn : Option AfterSwapFn) :
    NativeExecutor :=
  { swap_fn := swap_fn, after_swap_fn := after_swap_fn }

/-- `enum Backend` from `src/crates/sim/src/amm.rs`. -/
inductive Backend where
  | bpf (exec : BpfExecutor)
  | native (exec : NativeExecutor)

/-- Ghost trace events: one `exec` per executor `execute` call, one
`afterSwap` per `execute_after_swap` call (instrumentation, see module
header). -/
inductive Event where
  | exec (side input rx ry : ℕ)
  | afterSwap (side input output rx ry : ℕ)
deriving DecidableEq

/-- `struct BpfAmm` from `src/crates/sim/src/amm.rs`, plus the ghost
`trace` field. -/
structure BpfAmm where
  backend : Backend
  reserve_x : F64
  reserve_y : F64
  name : String
  storage : List ℕ
  trace : List Event

namespace BpfAmm

/-- `BpfAmm::new` (BPF backend): zeroed `STORAGE_SIZE`-byte storage. -/
def new (program : BpfProgram) (reserve_x reserve_y : F64) (name : String) :
    BpfAmm :=
  { backend := .bpf (BpfExecutor.new program)
    reserve_x := reserve_x
    reserve_y := reserve_y
    name := name
    storage := List.replicate STORAGE_SIZE 0
    trace := [] }

/-- `BpfAmm::new_native`: zeroed `STORAGE_SIZE`-byte storage. -/
def new_native (swap_fn : SwapFn) (after_swap_fn : Option AfterSwapFn)
    (reserve_x reserve_y : F64) (name : String) : BpfAmm :=
  { backend := .native (NativeExecutor.new swap_fn after_swap_fn)
    reserve_x := reserve_x
    reserve_y := reserve_y
    name := name
    storage := List.replicate STORAGE_SIZE 0
    trace := [] }

/-- `BpfAmm::call`: dispatch to the backend's `execute`; BPF errors map to
output `0` (`unwrap_or(0)`).  Storage is passed read-only (`&self.storage`).
The ghost trace records the invocation. -/
def call (p : BpfAmm) (side amount rx ry : ℕ) : ℕ × BpfAmm :=
  let p1 := { p with trace := p.trace ++ [Event.exec side amount rx ry] }
  match p1.backend with
  | .bpf exec =>
      match exec.program.execFn side amount rx ry p1.storage exec.vm with
      | (Except.ok r, vm') => (r, { p1 with backend := .bpf { exec with vm := vm' } })
      | (Except.error _, vm') => (0, { p1 with backend := .bpf { exec with vm := vm' } })
  | .native exec => (exec.swap_fn side amount rx ry p1.storage, p1)

/-- `BpfAmm::call_after_swap`: dispatch to the backend's
`execute_after_swap`; BPF errors are discarded (`let _ = ...`), and per the
spec model an erroring after-swap leaves storage untouched.  A native
executor without an after-swap handle is a no-op. -/
def call_after_swap (p : BpfAmm) (side input_amount output_amount rx ry : ℕ) :
    BpfAmm :=
  let p1 := { p with
    trace := p.trace ++ [Event.afterSwap side input_amount output_amount rx ry] }
  match p1.backend with
  | .bpf exec =>
      match exec.program.afterFn side input_amount output_amount rx ry p1.storage exec.vm with
      | (Except.ok st', vm') =>
          { p1 with storage := st', backend := .bpf { exec with vm := vm' } }
      | (Except.error _, vm') =>
          { p1 with backend := .bpf { exec with vm := vm' } }
  | .native exec =>
      match exec.after_swap_fn with
      | some f => { p1 with storage := f side input_amount output_amount rx ry p1.storage }
      | none => p1

/-- `BpfAmm::quote_buy_x`: `if input_y <= 0.0 { return 0.0 }` then
`call(0, ...)` on the nano-converted input and reserves. -/
def quote_buy_x (p : BpfAmm) (input_y : F64) : F64 × BpfAmm :=
  if F64.le input_y (F64.finite 0) then (F64.finite 0, p)
  else
    let r := p.call 0 (f64_to_nano input_y) (f64_to_nano p.reserve_x) (f64_to_nano p.reserve_y)
    (nano_to_f64 r.1, r.2)

/-- `BpfAmm::quote_sell_x`: symmetric with `side = 1`. -/
def quote_sell_x (p : BpfAmm) (input_x : F64) : F64 × BpfAmm :=
  if F64.le input_x (F64.finite 0) then (F64.finite 0, p)
  else
    let r := p.call 1 (f64_to_nano input_x) (f64_to_nano p.reserve_x) (f64_to_nano p.reserve_y)
    (nano_to_f64 r.1, r.2)

/-- `BpfAmm::execute_buy_x`: quote, and when the output is `> 0.0` subtract
it from `reserve_x`, add the input to `reserve_y`, and call `after_swap`
with the nano-converted post-update reserves. -/
def execute_buy_x (p : BpfAmm) (input_y : F64) : F64 × BpfAmm :=
  let r := p.quote_buy_x input_y
  let output_x := r.1
  let p1 := r.2
  if F64.lt (F64.finite 0) output_x then
    let rx' := F64.sub p1.reserve_x output_x
    let ry' := F64.add p1.reserve_y input_y
    let p2 := { p1 with reserve_x := rx', reserve_y := ry' }
    (output_x,
      p2.call_after_swap 0 (f64_to_nano input_y) (f64_to_nano output_x)
        (f64_to_nano rx') (f64_to_nano ry'))
  else (output_x, p1)

/-- `BpfAmm::execute_sell_x`: symmetric — add the input to `reserve_x`,
subtract the output from `reserve_y`. -/
def execute_sell_x (p : BpfAmm) (input_x : F64) : F64 × BpfAmm :=
  let r := p.quote_sell_x input_x
  let output_y := r.1
  let p1 := r.2
  if F64.lt (F64.finite 0) output_y then
    let rx' := F64.add p1.reserve_x input_x
    let ry' := F64.sub p1.reserve_y output_y
    let p2 := { p1 with reserve_x := rx', reserve_y := ry' }
    (output_y,
      p2.call_after_swap 1 (f64_to_nano input_x) (f64_to_nano output_y)
        (f64_to_nano rx') (f64_to_nano ry'))
  else (output_y, p1)

/-- `BpfAmm::spot_price`. -/
def spot_price (p : BpfAmm) : F64 := F64.div p.reserve_y p.reserve_x

/-- `BpfAmm::reset`: overwrite the reserves and `self.storage.fill(0)`. -/
def reset (p : BpfAmm) (reserve_x reserve_y : F64) : BpfAmm :=
  { p with
    reserve_x := reserve_x
    reserve_y := reserve_y
    storage := p.storage.map (fun _ => 0) }

end BpfAmm

/-! ### Operation sequences over a pool

Used to state the reserve non-negativity invariant over arbitrary call
sequences. -/

/-- One pool operation of `amm.rs`. -/
inductive Op where
  | quoteBuy (v : F64)
  | quoteSell (v : F64)
  | execBuy (v : F64)
  | execSell (v : F64)
  | reset (rx ry : F64)

/-- Apply one operation, keeping the post-state. -/
def applyOp (p : BpfAmm) : Op → BpfAmm
  | .quoteBuy v => (p.quote_buy_x v).2
  | .quoteSell v => (p.quote_sell_x v).2
  | .execBuy v => (p.execute_buy_x v).2
  | .execSell v => (p.execute_sell_x v).2
  | .reset rx ry => p.reset rx ry

/-- Apply a sequence of operations in order. -/
def applyOps (p : BpfAmm) : List Op → BpfAmm
  | [] => p
  | op :: ops => applyOps (applyOp p op) ops

/-- The side conditions under which one operation keeps reserves
non-negative: execute inputs are non-negative finite and the quoted output
does not exceed the reserve it is taken from; reset arguments are
non-negative finite. -/
def safeOp (p : BpfAmm) : Op → Bool
  | .quoteBuy _ => true
  | .quoteSell _ => true
  | .execBuy v => v.nonnegFin && F64.fleB (p.quote_buy_x v).1 p.reserve_x
  | .execSell v => v.nonnegFin && F64.fleB (p.quote_sell_x v).1 p.reserve_y
  | .reset rx ry => rx.nonnegFin && ry.nonnegFin

/-- The side conditions hold at every step of the sequence, each evaluated
in the state the previous steps produced. -/
def safeSeq (p : BpfAmm) : List Op → Bool
  | [] => true
  | op :: ops => safeOp p op && safeSeq (applyOp p op) ops

/-! ### Single-simulation engine

The engine (`prop_amm_sim::engine`, crate not under `src/`) is modelled
from the spec's design-level procedure. -/

/-- Modelled from the spec: `SimulationConfig` of `prop_amm_shared::config`
(not under `src/`) — steps, seed, initial reserves and the retail/arbitrage
parameters (abstracted to fixed magnitudes). -/
structure SimulationConfig where
  n_steps : ℕ
  seed : ℕ
  init_reserve_x : F64
  init_reserve_y : F64
  retail_size : ℚ
  arb_size : ℚ
  arb_threshold : ℚ
deriving DecidableEq

/-- Modelled from the spec: `SimulationResult` — the submission edge. -/
structure SimulationResult where
  submission_edge : F64
deriving DecidableEq

/-- Modelled from the spec: "a deterministic PRNG from `config.seed`";
instantiated as a 64-bit linear congruential generator. -/
def lcg_next (s : ℕ) : ℕ :=
  (6364136223846793005 * s + 1442695040888963407) % (2 ^ 64)

/-- The engine's per-step state: the two pools, the PRNG state and the
accumulated favorable/adverse PnL in nano-units. -/
structure EngineState where
  sub : BpfAmm
  norm : BpfAmm
  rng : ℕ
  favorable : ℚ
  adverse : ℚ

/-- Modelled from the spec: one engine step — draw a retail order from the
single PRNG stream and apply it to both pools with identical inputs; then,
if the spot-price gap exceeds the arbitrage threshold, apply an arbitrage
trade to the submission pool alone, toward the normalizer's price;
accumulate favorable (retail) and adverse (arbitrage) contributions. -/
def sim_step (cfg : SimulationConfig) (st : EngineState) : EngineState :=
  let r1 := lcg_next st.rng
  let r2 := lcg_next r1
  let size : F64 := .finite (cfg.retail_size * (1 + ((r2 % 100 : ℕ) : ℚ) / 100))
  let resS := if r1 % 2 = 0 then st.sub.execute_buy_x size else st.sub.execute_sell_x size
  let resN := if r1 % 2 = 0 then st.norm.execute_buy_x size else st.norm.execute_sell_x size
  let fav := st.favorable + ((f64_to_nano resS.1 : ℚ) - (f64_to_nano resN.1 : ℚ))
  match resS.2.spot_price, resN.2.spot_price with
  | .finite a, .finite b =>
      if cfg.arb_threshold < |a - b| then
        let arb : F64 := .finite cfg.arb_size
        let resA := if a < b then resS.2.execute_buy_x arb else resS.2.execute_sell_x arb
        { sub := resA.2, norm := resN.2, rng := r2,
          favorable := fav, adverse := st.adverse + (f64_to_nano resA.1 : ℚ) }
      else
        { sub := resS.2, norm := resN.2, rng := r2, favorable := fav, adverse := st.adverse }
  | _, _ =>
      { sub := resS.2, norm := resN.2, rng := r2, favorable := fav, adverse := st.adverse }

/-- Run `n` engine steps. -/
def sim_loop (cfg : SimulationConfig) : ℕ → EngineState → EngineState
  | 0, st => st
  | n + 1, st => sim_loop cfg n (sim_step cfg st)

/-- Modelled from the spec: `run_simulation_native` of `prop_amm_sim::engine`
(not under `src/`) — construct the two pools with freshly zeroed storage and
identical initial reserves, seed the PRNG from the config, run `n_steps`
steps, and report `submission_edge` = favorable − adverse, nano converted
to f64. -/
def run_simulation_native (sub_swap : SwapFn) (sub_after : Option AfterSwapFn)
    (norm_swap : SwapFn) (norm_after : Option AfterSwapFn)
    (cfg : SimulationConfig) : SimulationResult :=
  let sub := BpfAmm.new_native sub_swap sub_after cfg.init_reserve_x cfg.init_reserve_y
    "submission"
  let norm := BpfAmm.new_native norm_swap norm_after cfg.init_reserve_x cfg.init_reserve_y
    "normalizer"
  let final := sim_loop cfg cfg.n_steps
    { sub := sub, norm := norm, rng := lcg_next cfg.seed, favorable := 0, adverse := 0 }
  { submission_edge := .finite ((final.favorable - final.adverse) / 1000000000) }

/-! ### Native library loading (`src/crates/cli/src/commands/run.rs`) -/

/-- A loaded submission library, abstracted to its two symbol lookups
(`lib.get(b"compute_swap_ffi")`, `lib.get(b"after_swap_ffi")`): `none`
models a missing symbol. -/
structure NativeLibrary where
  compute_swap_ffi : Option SwapFn
  after_swap_ffi : Option AfterSwapFn

/-- `run_native` from `src/crates/cli/src/commands/run.rs`, after the
library has been found and loaded: resolving `compute_swap_ffi` is
mandatory (`?` propagates the error before any batch is started), while a
missing `after_swap_ffi` leaves the submission after-swap unbound (`None`).
The batch runner (`prop_amm_sim::runner`, not under `src/`) is abstracted
as the parameter `run_default_batch`, applied only on the success path. -/
def run_native (lib : NativeLibrary)
    (run_default_batch : SwapFn → Option AfterSwapFn → SimulationResult) :
    Except String SimulationResult :=
  match lib.compute_swap_ffi with
  | none => Except.error "Missing compute_swap_ffi symbol"
  | some swap_fn =>
      let submission_after_swap : Option AfterSwapFn := lib.after_swap_ffi
      Except.ok (run_default_batch swap_fn submission_after_swap)

/-! ### Submission SDK (`src/crates/submission-sdk/src/lib.rs`) -/

/-- `StorageError` from the SDK. -/
inductive StorageError where
  | tooLarge
deriving DecidableEq

/-- `set_storage` from the SDK: fails with `TooLarge` when the slice is
longer than `STORAGE_SIZE`, otherwise succeeds (the write itself is a
target-gated syscall, invisible to the caller's result). -/
def set_storage (storage : List ℕ) : Except StorageError Unit :=
  if storage.length > STORAGE_SIZE then Except.error StorageError.tooLarge
  else Except.ok ()

/-! ### Concrete pools and inputs used by witnesses and counterexamples -/

/-- A native strategy quoting a constant 5.0 (in nano-units). -/
def constSwap5 : SwapFn := fun _ _ _ _ _ => 5000000000

/-- A native strategy quoting a constant 200.0 (in nano-units) — more than
the x-reserve of the pools below. -/
def constSwap200 : SwapFn := fun _ _ _ _ _ => 200000000000

/-- Concrete pool for the C1 witness. -/
def pool1 : BpfAmm :=
  BpfAmm.new_native constSwap5 none (F64.finite 100) (F64.finite 10000) "w1"

/-- Concrete pool for the C4 witness. -/
def pool4 : BpfAmm :=
  BpfAmm.new_native constSwap5 none (F64.finite 100) (F64.finite 10000) "w4"

/-- Concrete operation sequence for the C4 witness. -/
def ops4 : List Op :=
  [Op.execBuy (F64.finite 10), Op.reset (F64.finite 50) (F64.finite 60),
   Op.quoteBuy (F64.finite 1), Op.execSell (F64.finite 2)]

/-- Concrete pool for the C4 counterexample: constructed with non-negative
reserves `(100, 10000)` and bound to an executor whose quote exceeds the
x-reserve. -/
def pool4bad : BpfAmm :=
  BpfAmm.new_native constSwap200 none (F64.finite 100) (F64.finite 10000) "bad"

/-- A BPF program whose `execute` and `execute_after_swap` always fault
(concrete input for the C6 witness). -/
def faultyProgram : BpfProgram :=
  { execFn := fun _ _ _ _ _ vm => (Except.error (), vm)
    afterFn := fun _ _ _ _ _ _ vm => (Except.error (), vm) }

/-- Concrete BPF pool bound to `faultyProgram`. -/
def pool6 : BpfAmm :=
  BpfAmm.new faultyProgram (F64.finite 100) (F64.finite 10000) "w6"

/-- A library missing both symbols. -/
def lib_none : NativeLibrary := { compute_swap_ffi := none, after_swap_ffi := none }

/-- A library with `compute_swap_ffi` but no `after_swap_ffi`. -/
def lib_swap_only : NativeLibrary :=
  { compute_swap_ffi := some constSwap5, after_swap_ffi := none }

/-- A concrete batch runner for the C7 witness. -/
def batch0 : SwapFn → Option AfterSwapFn → SimulationResult :=
  fun _ _ => { submission_edge := F64.finite 0 }

/-- A second concrete batch runner for the C7 witness. -/
def batch1 : SwapFn → Option AfterSwapFn → SimulationResult :=
  fun _ _ => { submission_edge := F64.finite 1 }

/-- Concrete configuration for the C3 witness. -/
def cfg3 : SimulationConfig :=
  { n_steps := 3, seed := 42, init_reserve_x := F64.finite 100,
    init_reserve_y := F64.finite 10000, retail_size := 2, arb_size := 1,
    arb_threshold := 5 }

namespace BpfAmm

/-! Frame lemmas about the executor dispatch helpers, shared by the claim
theorems below. -/

theorem call_frame (p : BpfAmm) (s a rx ry : ℕ) :
    (p.call s a rx ry).2.storage = p.storage ∧
    (p.call s a rx ry).2.reserve_x = p.reserve_x ∧
    (p.call s a rx ry).2.reserve_y = p.reserve_y ∧
    (p.call s a rx ry).2.trace = p.trace ++ [Event.exec s a rx ry] := by
  unfold call
  cases p with
  | mk backend rx0 ry0 nm st tr =>
    cases backend with
    | bpf e =>
      rcases he : e.program.execFn s a rx ry st e.vm with ⟨r, vm'⟩
      cases r <;> simp [he]
    | native e => simp

theorem call_after_swap_frame (p : BpfAmm) (s i o rx ry : ℕ) :
    (p.call_after_swap s i o rx ry).reserve_x = p.reserve_x ∧
    (p.call_after_swap s i o rx ry).reserve_y = p.reserve_y ∧
    (p.call_after_swap s i o rx ry).trace
      = p.trace ++ [Event.afterSwap s i o rx ry] := by
  unfold call_after_swap
  cases p with
  | mk backend rx0 ry0 nm st tr =>
    cases backend with
    | bpf e =>
      rcases he : e.program.afterFn s i o rx ry st e.vm with ⟨r, vm'⟩
      cases r <;> simp [he]
    | native e => cases he : e.after_swap_fn <;> simp [he]

theorem quote_buy_x_frame (p : BpfAmm) (v : F64) :
    (p.quote_buy_x v).2.storage = p.storage ∧
    (p.quote_buy_x v).2.reserve_x = p.reserve_x ∧
    (p.quote_buy_x v).2.reserve_y = p.reserve_y := by
  unfold quote_buy_x
  cases h : F64.le v (F64.finite 0) with
  | true => simp [h]
  | false =>
    simp only [h, Bool.false_eq_true, if_false]
    exact ⟨(call_frame p 0 _ _ _).1, (call_frame p 0 _ _ _).2.1,
      (call_frame p 0 _ _ _).2.2.1⟩

theorem quote_sell_x_frame (p : BpfAmm) (v : F64) :
    (p.quote_sell_x v).2.storage = p.storage ∧
    (p.quote_sell_x v).2.reserve_x = p.reserve_x ∧
    (p.quote_sell_x v).2.reserve_y = p.reserve_y := by
  unfold quote_sell_x
  cases h : F64.le v (F64.finite 0) with
  | true => simp [h]
  | false =>
    simp only [h, Bool.false_eq_true, if_false]
    exact ⟨(call_frame p 1 _ _ _).1, (call_frame p 1 _ _ _).2.1,
      (call_frame p 1 _ _ _).2.2.1⟩

theorem call_after_swap_reserve_x (p : BpfAmm) (s i o rx ry : ℕ) :
    (p.call_after_swap s i o rx ry).reserve_x = p.reserve_x :=
  (call_after_swap_frame p s i o rx ry).1

theorem call_after_swap_reserve_y (p : BpfAmm) (s i o rx ry : ℕ) :
    (p.call_after_swap s i o rx ry).reserve_y = p.reserve_y :=
  (call_after_swap_frame p s i o rx ry).2.1

theorem call_after_swap_trace (p : BpfAmm) (s i o rx ry : ℕ) :
    (p.call_after_swap s i o rx ry).trace
      = p.trace ++ [Event.afterSwap s i o rx ry] :=
  (call_after_swap_frame p s i o rx ry).2.2

end BpfAmm

open BpfAmm

section ConcreteEvaluation

/- Batteries marks the rational operations `@[irreducible]`; concrete
witnesses evaluate them, so they are made semireducible for this section. -/
attribute [local semireducible] Rat.mul Rat.add Rat.sub Rat.inv

/-- C1: when the quoted output is positive, `execute_buy_x` subtracts the
output from `reserve_x`, adds the input to `reserve_y`, and then calls
`after_swap` with side 0, the nano-converted input and output, and the
nano-converted reserves as they stand after the update; `execute_sell_x`
is symmetric (side 1, adds the input to `reserve_x`, subtracts the output
from `reserve_y`, after_swap sees the post-update reserves). -/
theorem execute_updates_reserves_then_after_swap (p : BpfAmm) (iy ix : F64)
    (hbuy : F64.lt (F64.finite 0) (p.quote_buy_x iy).1 = true)
    (hsell : F64.lt (F64.finite 0) (p.quote_sell_x ix).1 = true) :
    ((p.execute_buy_x iy).1 = (p.quote_buy_x iy).1 ∧
      (p.execute_buy_x iy).2.reserve_x = F64.sub p.reserve_x (p.quote_buy_x iy).1 ∧
      (p.execute_buy_x iy).2.reserve_y = F64.add p.reserve_y iy ∧
      (p.execute_buy_x iy).2.trace
        = (p.quote_buy_x iy).2.trace
          ++ [Event.afterSwap 0 (f64_to_nano iy) (f64_to_nano (p.quote_buy_x iy).1)
                (f64_to_nano (F64.sub p.reserve_x (p.quote_buy_x iy).1))
                (f64_to_nano (F64.add p.reserve_y iy))]) ∧
    ((p.execute_sell_x ix).1 = (p.quote_sell_x ix).1 ∧
      (p.execute_sell_x ix).2.reserve_x = F64.add p.reserve_x ix ∧
      (p.execute_sell_x ix).2.reserve_y = F64.sub p.reserve_y (p.quote_sell_x ix).1 ∧
      (p.execute_sell_x ix).2.trace
        = (p.quote_sell_x ix).2.trace
          ++ [Event.afterSwap 1 (f64_to_nano ix) (f64_to_nano (p.quote_sell_x ix).1)
                (f64_to_nano (F64.add p.reserve_x ix))
                (f64_to_nano (F64.sub p.reserve_y (p.quote_sell_x ix).1))]) := by
  obtain ⟨hsb, hxb, hyb⟩ := quote_buy_x_frame p iy
  obtain ⟨hss, hxs, hys⟩ := quote_sell_x_frame p ix
  constructor
  · unfold execute_buy_x
    simp only [hbuy, if_true]
    refine ⟨trivial, ?_, ?_, ?_⟩
    · rw [call_after_swap_reserve_x]; simp [hxb]
    · rw [call_after_swap_reserve_y]; simp [hyb]
    · rw [call_after_swap_trace]; simp [hxb, hyb]
  · unfold execute_sell_x
    simp only [hsell, if_true]
    refine ⟨trivial, ?_, ?_, ?_⟩
    · rw [call_after_swap_reserve_x]; simp [hxs]
    · rw [call_after_swap_reserve_y]; simp [hys]
    · rw [call_after_swap_trace]; simp [hxs, hys]

/-- C1 witness: a concrete pool whose executor quotes 5.0, with buy input
10 and sell input 7. -/
theorem execute_updates_reserves_then_after_swap_witness :
    ((pool1.execute_buy_x (F64.finite 10)).1 = (pool1.quote_buy_x (F64.finite 10)).1 ∧
      (pool1.execute_buy_x (F64.finite 10)).2.reserve_x
        = F64.sub pool1.reserve_x (pool1.quote_buy_x (F64.finite 10)).1 ∧
      (pool1.execute_buy_x (F64.finite 10)).2.reserve_y
        = F64.add pool1.reserve_y (F64.finite 10) ∧
      (pool1.execute_buy_x (F64.finite 10)).2.trace
        = (pool1.quote_buy_x (F64.finite 10)).2.trace
          ++ [Event.afterSwap 0 (f64_to_nano (F64.finite 10))
                (f64_to_nano (pool1.quote_buy_x (F64.finite 10)).1)
                (f64_to_nano (F64.sub pool1.reserve_x (pool1.quote_buy_x (F64.finite 10)).1))
                (f64_to_nano (F64.add pool1.reserve_y (F64.finite 10)))]) ∧
    ((pool1.execute_sell_x (F64.finite 7)).1 = (pool1.quote_sell_x (F64.finite 7)).1 ∧
      (pool1.execute_sell_x (F64.finite 7)).2.reserve_x
        = F64.add pool1.reserve_x (F64.finite 7) ∧
      (pool1.execute_sell_x (F64.finite 7)).2.reserve_y
        = F64.sub pool1.reserve_y (pool1.quote_sell_x (F64.finite 7)).1 ∧
      (pool1.execute_sell_x (F64.finite 7)).2.trace
        = (pool1.quote_sell_x (F64.finite 7)).2.trace
          ++ [Event.afterSwap 1 (f64_to_nano (F64.finite 7))
                (f64_to_nano (pool1.quote_sell_x (F64.finite 7)).1)
                (f64_to_nano (F64.add pool1.reserve_x (F64.finite 7)))
                (f64_to_nano (F64.sub pool1.reserve_y (pool1.quote_sell_x (F64.finite 7)).1))]) :=
  execute_updates_reserves_then_after_swap pool1 (F64.finite 10) (F64.finite 7)
    (by decide) (by decide)

/-- C9: quote_buy_x and quote_sell_x leave the pool's storage and both
reserves unchanged, for every pool state and every input. -/
theorem quotes_preserve_storage_and_reserves (p : BpfAmm) (v w : F64) :
    (p.quote_buy_x v).2.storage = p.storage ∧
    (p.quote_buy_x v).2.reserve_x = p.reserve_x ∧
    (p.quote_buy_x v).2.reserve_y = p.reserve_y ∧
    (p.quote_sell_x w).2.storage = p.storage ∧
    (p.quote_sell_x w).2.reserve_x = p.reserve_x ∧
    (p.quote_sell_x w).2.reserve_y = p.reserve_y :=
  ⟨(quote_buy_x_frame p v).1, (quote_buy_x_frame p v).2.1,
   (quote_buy_x_frame p v).2.2, (quote_sell_x_frame p w).1,
   (quote_sell_x_frame p w).2.1, (quote_sell_x_frame p w).2.2⟩

/-- C2: for every pool state, a non-positive input (in the IEEE sense
`input <= 0.0`) makes the quote operations return 0 without invoking the
executor, and makes the execute operations return 0 while leaving the whole
pool — reserves, storage and invocation trace — unchanged (so no executor
call and no after-swap call happens). -/
theorem nonpositive_input_is_noop (p : BpfAmm) (v : F64)
    (h : F64.le v (F64.finite 0) = true) :
    p.quote_buy_x v = (F64.finite 0, p) ∧
    p.quote_sell_x v = (F64.finite 0, p) ∧
    p.execute_buy_x v = (F64.finite 0, p) ∧
    p.execute_sell_x v = (F64.finite 0, p) := by
  have hq : p.quote_buy_x v = (F64.finite 0, p) := by
    unfold quote_buy_x; simp [h]
  have hq' : p.quote_sell_x v = (F64.finite 0, p) := by
    unfold quote_sell_x; simp [h]
  have hlt : F64.lt (F64.finite 0) (F64.finite 0) = false := by decide
  refine ⟨hq, hq', ?_, ?_⟩
  · unfold execute_buy_x; rw [hq]; simp [hlt]
  · unfold execute_sell_x; rw [hq']; simp [hlt]

/-- C2 witness: at input `-1` on a concrete native pool. -/
theorem nonpositive_input_is_noop_witness :
    (BpfAmm.new_native (fun _ _ _ _ _ => 0) none (F64.finite 100)
        (F64.finite 10000) "w").quote_buy_x (F64.finite (-1))
      = (F64.finite 0,
         BpfAmm.new_native (fun _ _ _ _ _ => 0) none (F64.finite 100)
           (F64.finite 10000) "w") :=
  (nonpositive_input_is_noop _ _ (by decide)).1

/-- C10: a NaN input does not take the non-positive early-return path
(`NaN <= 0.0` is false), so both quote operations do invoke the executor,
and the nano amount they pass is `f64_to_nano(NaN) = 0` (spec-modelled
conversion): the trace gains exactly one `exec` event with amount 0. -/
theorem nan_input_invokes_executor (p : BpfAmm) :
    F64.le F64.nan (F64.finite 0) = false ∧
    f64_to_nano F64.nan = 0 ∧
    (p.quote_buy_x F64.nan).2.trace
      = p.trace ++ [Event.exec 0 0 (f64_to_nano p.reserve_x) (f64_to_nano p.reserve_y)] ∧
    (p.quote_sell_x F64.nan).2.trace
      = p.trace ++ [Event.exec 1 0 (f64_to_nano p.reserve_x) (f64_to_nano p.reserve_y)] := by
  refine ⟨rfl, rfl, ?_, ?_⟩
  · unfold quote_buy_x
    simp only [show F64.le F64.nan (F64.finite 0) = false from rfl,
      Bool.false_eq_true, if_false]
    exact (call_frame p 0 (f64_to_nano F64.nan) _ _).2.2.2
  · unfold quote_sell_x
    simp only [show F64.le F64.nan (F64.finite 0) = false from rfl,
      Bool.false_eq_true, if_false]
    exact (call_frame p 1 (f64_to_nano F64.nan) _ _).2.2.2

/-- C5: pools constructed by `new` (BPF) or `new_native` have all
`STORAGE_SIZE = 1024` storage bytes zero, and `reset(rx, ry)` overwrites
the reserves and zero-fills the storage (every byte becomes 0, the length
is preserved). -/
theorem construction_and_reset_zero_storage (program : BpfProgram)
    (swap_fn : SwapFn) (after_swap_fn : Option AfterSwapFn)
    (rx ry rx' ry' : F64) (nm : String) (p : BpfAmm) :
    STORAGE_SIZE = 1024 ∧
    (BpfAmm.new program rx ry nm).storage = List.replicate STORAGE_SIZE 0 ∧
    (BpfAmm.new_native swap_fn after_swap_fn rx ry nm).storage
      = List.replicate STORAGE_SIZE 0 ∧
    (p.reset rx' ry').reserve_x = rx' ∧
    (p.reset rx' ry').reserve_y = ry' ∧
    (p.reset rx' ry').storage.all (fun b => b == 0) = true ∧
    (p.reset rx' ry').storage.length = p.storage.length := by
  refine ⟨rfl, rfl, rfl, rfl, rfl, ?_, by simp [BpfAmm.reset]⟩
  simp [BpfAmm.reset, List.all_eq_true]

/-- C8: `set_storage(s)` returns `Err(TooLarge)` exactly when the slice is
longer than 1024 bytes, and `Ok(())` exactly otherwise. -/
theorem set_storage_too_large_iff (s : List ℕ) :
    (set_storage s = Except.error StorageError.tooLarge ↔ 1024 < s.length) ∧
    (set_storage s = Except.ok () ↔ s.length ≤ 1024) := by
  unfold set_storage STORAGE_SIZE
  by_cases h : 1024 < s.length
  · simp only [h, if_true]
    refine ⟨by simp, by simp; omega⟩
  · simp only [h, if_false]
    refine ⟨by simp, by simp; omega⟩

/-- C7: a library without `compute_swap_ffi` makes `run_native` return the
load error — independently of the batch runner, which is never consulted —
while a library with `compute_swap_ffi` but without `after_swap_ffi` runs
the batch with no after-swap function bound (`none`). -/
theorem run_native_symbol_resolution (lib1 lib2 : NativeLibrary)
    (rb rb' : SwapFn → Option AfterSwapFn → SimulationResult) (f : SwapFn)
    (h1 : lib1.compute_swap_ffi = none)
    (h2 : lib2.compute_swap_ffi = some f)
    (h3 : lib2.after_swap_ffi = none) :
    run_native lib1 rb = Except.error "Missing compute_swap_ffi symbol" ∧
    run_native lib1 rb = run_native lib1 rb' ∧
    run_native lib2 rb = Except.ok (rb f none) := by
  unfold run_native
  rw [h1, h2, h3]
  exact ⟨rfl, rfl, rfl⟩

/-- C7 witness: concrete libraries, one missing both symbols and one with
only `compute_swap_ffi`, against two distinct batch runners. -/
theorem run_native_symbol_resolution_witness :
    run_native lib_none batch0 = Except.error "Missing compute_swap_ffi symbol" ∧
    run_native lib_none batch0 = run_native lib_none batch1 ∧
    run_native lib_swap_only batch0 = Except.ok (batch0 constSwap5 none) :=
  run_native_symbol_resolution lib_none lib_swap_only batch0 batch1 constSwap5
    rfl rfl rfl

/-- A faulting BPF `execute` makes `call` return 0 (`unwrap_or(0)` in
`amm.rs`). -/
theorem call_output_zero_of_error (p : BpfAmm) (e : BpfExecutor)
    (s a rx ry : ℕ) (hb : p.backend = Backend.bpf e)
    (herr : (e.program.execFn s a rx ry p.storage e.vm).1 = Except.error ()) :
    (p.call s a rx ry).1 = 0 := by
  unfold call
  rcases hres : e.program.execFn s a rx ry p.storage e.vm with ⟨r, vm'⟩
  rw [hres] at herr
  simp only at herr
  subst herr
  simp [hb, hres]

/-- A faulting BPF `execute_after_swap` is swallowed with the storage left
untouched. -/
theorem call_after_swap_storage_of_error (p : BpfAmm) (e : BpfExecutor)
    (s i o rx ry : ℕ) (hb : p.backend = Backend.bpf e)
    (herr : (e.program.afterFn s i o rx ry p.storage e.vm).1 = Except.error ()) :
    (p.call_after_swap s i o rx ry).storage = p.storage := by
  unfold call_after_swap
  rcases hres : e.program.afterFn s i o rx ry p.storage e.vm with ⟨r, vm'⟩
  rw [hres] at herr
  simp only at herr
  subst herr
  simp [hb, hres]

/-- A positive-guarded quote whose `call` returns 0 quotes `0.0`. -/
theorem quote_buy_x_zero_of_error (p : BpfAmm) (e : BpfExecutor) (v : F64)
    (hb : p.backend = Backend.bpf e)
    (hv : F64.le v (F64.finite 0) = false)
    (herr : (e.program.execFn 0 (f64_to_nano v) (f64_to_nano p.reserve_x)
        (f64_to_nano p.reserve_y) p.storage e.vm).1 = Except.error ()) :
    (p.quote_buy_x v).1 = F64.finite 0 := by
  unfold quote_buy_x
  simp only [hv, Bool.false_eq_true, if_false]
  rw [call_output_zero_of_error p e _ _ _ _ hb herr]
  simp [nano_to_f64]

/-- Sell-side analogue of `quote_buy_x_zero_of_error`. -/
theorem quote_sell_x_zero_of_error (p : BpfAmm) (e : BpfExecutor) (v : F64)
    (hb : p.backend = Backend.bpf e)
    (hv : F64.le v (F64.finite 0) = false)
    (herr : (e.program.execFn 1 (f64_to_nano v) (f64_to_nano p.reserve_x)
        (f64_to_nano p.reserve_y) p.storage e.vm).1 = Except.error ()) :
    (p.quote_sell_x v).1 = F64.finite 0 := by
  unfold quote_sell_x
  simp only [hv, Bool.false_eq_true, if_false]
  rw [call_output_zero_of_error p e _ _ _ _ hb herr]
  simp [nano_to_f64]

/-- The guard `output > 0.0` fails at `0.0`. -/
theorem lt_zero_zero_false : F64.lt (F64.finite 0) (F64.finite 0) = false := by
  decide

/-- C6: with a BPF backend, an error from the executor's `execute` makes the
swap yield output 0, so the execute operations perform no reserve update,
no storage change, and no after-swap call (the trace gains only the one
`exec` event of the failed call); an error from `execute_after_swap` is
swallowed as a no-op (storage and reserves unchanged); in all cases the
operations return normally. -/
theorem bpf_errors_locally_recovered (p : BpfAmm) (e : BpfExecutor) (v : F64)
    (s i o rx ry : ℕ)
    (hb : p.backend = Backend.bpf e)
    (hv : F64.le v (F64.finite 0) = false)
    (herr0 : (e.program.execFn 0 (f64_to_nano v) (f64_to_nano p.reserve_x)
        (f64_to_nano p.reserve_y) p.storage e.vm).1 = Except.error ())
    (herr1 : (e.program.execFn 1 (f64_to_nano v) (f64_to_nano p.reserve_x)
        (f64_to_nano p.reserve_y) p.storage e.vm).1 = Except.error ())
    (herr2 : (e.program.afterFn s i o rx ry p.storage e.vm).1 = Except.error ()) :
    ((p.quote_buy_x v).1 = F64.finite 0 ∧
      (p.execute_buy_x v).1 = F64.finite 0 ∧
      (p.execute_buy_x v).2.reserve_x = p.reserve_x ∧
      (p.execute_buy_x v).2.reserve_y = p.reserve_y ∧
      (p.execute_buy_x v).2.storage = p.storage ∧
      (p.execute_buy_x v).2.trace = p.trace
        ++ [Event.exec 0 (f64_to_nano v) (f64_to_nano p.reserve_x)
              (f64_to_nano p.reserve_y)]) ∧
    ((p.quote_sell_x v).1 = F64.finite 0 ∧
      (p.execute_sell_x v).1 = F64.finite 0 ∧
      (p.execute_sell_x v).2.reserve_x = p.reserve_x ∧
      (p.execute_sell_x v).2.reserve_y = p.reserve_y ∧
      (p.execute_sell_x v).2.storage = p.storage ∧
      (p.execute_sell_x v).2.trace = p.trace
        ++ [Event.exec 1 (f64_to_nano v) (f64_to_nano p.reserve_x)
              (f64_to_nano p.reserve_y)]) ∧
    ((p.call_after_swap s i o rx ry).storage = p.storage ∧
      (p.call_after_swap s i o rx ry).reserve_x = p.reserve_x ∧
      (p.call_after_swap s i o rx ry).reserve_y = p.reserve_y) := by
  have hqb := quote_buy_x_zero_of_error p e v hb hv herr0
  have hqs := quote_sell_x_zero_of_error p e v hb hv herr1
  have hfb := quote_buy_x_frame p v
  have hfs := quote_sell_x_frame p v
  refine ⟨⟨hqb, ?_⟩, ⟨hqs, ?_⟩, call_after_swap_storage_of_error p e _ _ _ _ _ hb herr2,
    call_after_swap_reserve_x _ _ _ _ _ _, call_after_swap_reserve_y _ _ _ _ _ _⟩
  · unfold execute_buy_x
    simp only [hqb, lt_zero_zero_false, Bool.false_eq_true, if_false]
    refine ⟨trivial, hfb.2.1, hfb.2.2, hfb.1, ?_⟩
    unfold quote_buy_x
    simp only [hv, Bool.false_eq_true, if_false]
    exact (call_frame p 0 _ _ _).2.2.2
  · unfold execute_sell_x
    simp only [hqs, lt_zero_zero_false, Bool.false_eq_true, if_false]
    refine ⟨trivial, hfs.2.1, hfs.2.2, hfs.1, ?_⟩
    unfold quote_sell_x
    simp only [hv, Bool.false_eq_true, if_false]
    exact (call_frame p 1 _ _ _).2.2.2

/-- C6 witness: a concrete BPF pool whose program always faults, at input
10. -/
theorem bpf_errors_locally_recovered_witness :
    ((pool6.quote_buy_x (F64.finite 10)).1 = F64.finite 0 ∧
      (pool6.execute_buy_x (F64.finite 10)).1 = F64.finite 0 ∧
      (pool6.execute_buy_x (F64.finite 10)).2.reserve_x = pool6.reserve_x ∧
      (pool6.execute_buy_x (F64.finite 10)).2.reserve_y = pool6.reserve_y ∧
      (pool6.execute_buy_x (F64.finite 10)).2.storage = pool6.storage ∧
      (pool6.execute_buy_x (F64.finite 10)).2.trace = pool6.trace
        ++ [Event.exec 0 (f64_to_nano (F64.finite 10)) (f64_to_nano pool6.reserve_x)
              (f64_to_nano pool6.reserve_y)]) ∧
    ((pool6.quote_sell_x (F64.finite 10)).1 = F64.finite 0 ∧
      (pool6.execute_sell_x (F64.finite 10)).1 = F64.finite 0 ∧
      (pool6.execute_sell_x (F64.finite 10)).2.reserve_x = pool6.reserve_x ∧
      (pool6.execute_sell_x (F64.finite 10)).2.reserve_y = pool6.reserve_y ∧
      (pool6.execute_sell_x (F64.finite 10)).2.storage = pool6.storage ∧
      (pool6.execute_sell_x (F64.finite 10)).2.trace = pool6.trace
        ++ [Event.exec 1 (f64_to_nano (F64.finite 10)) (f64_to_nano pool6.reserve_x)
              (f64_to_nano pool6.reserve_y)]) ∧
    ((pool6.call_after_swap 0 7 3 11 13).storage = pool6.storage ∧
      (pool6.call_after_swap 0 7 3 11 13).reserve_x = pool6.reserve_x ∧
      (pool6.call_after_swap 0 7 3 11 13).reserve_y = pool6.reserve_y) :=
  bpf_errors_locally_recovered pool6 (BpfExecutor.new faultyProgram)
    (F64.finite 10) 0 7 3 11 13 rfl (by decide) rfl rfl rfl

/-- C3: the single-simulation engine is a deterministic function of the
strategy handles and the configuration — two runs with identical configs
produce identical `SimulationResult`s, with exact equality of the numeric
fields. -/
theorem run_simulation_native_deterministic (ss ns : SwapFn)
    (sa na : Option AfterSwapFn) (cfg cfg' : SimulationConfig)
    (h : cfg = cfg') :
    run_simulation_native ss sa ns na cfg = run_simulation_native ss sa ns na cfg' ∧
    (run_simulation_native ss sa ns na cfg).submission_edge
      = (run_simulation_native ss sa ns na cfg').submission_edge := by
  subst h
  exact ⟨rfl, rfl⟩

/-- C3 witness: two runs at the concrete configuration `cfg3` with the
constant strategy against itself. -/
theorem run_simulation_native_deterministic_witness :
    run_simulation_native constSwap5 none constSwap5 none cfg3
      = run_simulation_native constSwap5 none constSwap5 none cfg3 ∧
    (run_simulation_native constSwap5 none constSwap5 none cfg3).submission_edge
      = (run_simulation_native constSwap5 none constSwap5 none cfg3).submission_edge :=
  run_simulation_native_deterministic constSwap5 constSwap5 none none cfg3 cfg3 rfl

/-- A non-negative-finite value is a `finite` with non-negative rational. -/
theorem nonnegFin_exists {x : F64} (h : x.nonnegFin = true) :
    ∃ q, x = F64.finite q ∧ 0 ≤ q := by
  cases x with
  | finite q => exact ⟨q, rfl, by simpa [F64.nonnegFin] using h⟩
  | inf => simp [F64.nonnegFin] at h
  | neginf => simp [F64.nonnegFin] at h
  | nan => simp [F64.nonnegFin] at h

/-- `fleB` holds only between finite values, ordered. -/
theorem fleB_exists {x y : F64} (h : F64.fleB x y = true) :
    ∃ a b, x = F64.finite a ∧ y = F64.finite b ∧ a ≤ b := by
  cases x with
  | finite a =>
    cases y with
    | finite b => exact ⟨a, b, rfl, rfl, by simpa [F64.fleB] using h⟩
    | inf => simp [F64.fleB] at h
    | neginf => simp [F64.fleB] at h
    | nan => simp [F64.fleB] at h
  | inf => simp [F64.fleB] at h
  | neginf => simp [F64.fleB] at h
  | nan => simp [F64.fleB] at h

/-- Finite subtraction is exact. -/
theorem sub_finite (a b : ℚ) :
    F64.sub (F64.finite a) (F64.finite b) = F64.finite (a - b) := by
  simp [F64.sub, F64.neg, F64.add, sub_eq_add_neg]

/-- A quote is always a non-negative finite value (0 on the early return,
`nano_to_f64` of a u64 otherwise). -/
theorem quote_buy_x_value_nonneg (p : BpfAmm) (v : F64) :
    (p.quote_buy_x v).1.nonnegFin = true := by
  unfold quote_buy_x
  cases h : F64.le v (F64.finite 0) with
  | true => simp [h, F64.nonnegFin]
  | false =>
    simp only [h, Bool.false_eq_true, if_false]
    simp only [nano_to_f64, F64.nonnegFin, decide_eq_true_eq]
    positivity

/-- Sell-side analogue of `quote_buy_x_value_nonneg`. -/
theorem quote_sell_x_value_nonneg (p : BpfAmm) (v : F64) :
    (p.quote_sell_x v).1.nonnegFin = true := by
  unfold quote_sell_x
  cases h : F64.le v (F64.finite 0) with
  | true => simp [h, F64.nonnegFin]
  | false =>
    simp only [h, Bool.false_eq_true, if_false]
    simp only [nano_to_f64, F64.nonnegFin, decide_eq_true_eq]
    positivity

/-- One `execute_buy_x` keeps reserves non-negative when the input is
non-negative finite and the quoted output does not exceed `reserve_x`. -/
theorem execute_buy_x_nonneg_step (p : BpfAmm) (v : F64)
    (hx : p.reserve_x.nonnegFin = true) (hy : p.reserve_y.nonnegFin = true)
    (hv : v.nonnegFin = true)
    (hle : F64.fleB (p.quote_buy_x v).1 p.reserve_x = true) :
    (p.execute_buy_x v).2.reserve_x.nonnegFin = true ∧
    (p.execute_buy_x v).2.reserve_y.nonnegFin = true := by
  obtain ⟨hsb, hxb, hyb⟩ := quote_buy_x_frame p v
  obtain ⟨q1, b1, hq1, hb1, hqb⟩ := fleB_exists hle
  obtain ⟨c, hcv, hc⟩ := nonnegFin_exists hv
  obtain ⟨d, hdy, hd⟩ := nonnegFin_exists hy
  unfold execute_buy_x
  cases hq : F64.lt (F64.finite 0) (p.quote_buy_x v).1 with
  | false =>
    simp only [hq, Bool.false_eq_true, if_false]
    exact ⟨hxb ▸ hx, hyb ▸ hy⟩
  | true =>
    simp only [hq, if_true]
    rw [call_after_swap_reserve_x, call_after_swap_reserve_y]
    constructor
    · show (F64.sub (p.quote_buy_x v).2.reserve_x (p.quote_buy_x v).1).nonnegFin = true
      rw [hxb, hq1, hb1, sub_finite]
      simp only [F64.nonnegFin, decide_eq_true_eq]
      linarith
    · show (F64.add (p.quote_buy_x v).2.reserve_y v).nonnegFin = true
      rw [hyb, hcv, hdy]
      simp only [F64.add, F64.nonnegFin, decide_eq_true_eq]
      linarith

/-- One `execute_sell_x` keeps reserves non-negative when the input is
non-negative finite and the quoted output does not exceed `reserve_y`. -/
theorem execute_sell_x_nonneg_step (p : BpfAmm) (v : F64)
    (hx : p.reserve_x.nonnegFin = true) (hy : p.reserve_y.nonnegFin = true)
    (hv : v.nonnegFin = true)
    (hle : F64.fleB (p.quote_sell_x v).1 p.reserve_y = true) :
    (p.execute_sell_x v).2.reserve_x.nonnegFin = true ∧
    (p.execute_sell_x v).2.reserve_y.nonnegFin = true := by
  obtain ⟨hss, hxs, hys⟩ := quote_sell_x_frame p v
  obtain ⟨q1, b1, hq1, hb1, hqb⟩ := fleB_exists hle
  obtain ⟨c, hcv, hc⟩ := nonnegFin_exists hv
  obtain ⟨d, hdx, hd⟩ := nonnegFin_exists hx
  unfold execute_sell_x
  cases hq : F64.lt (F64.finite 0) (p.quote_sell_x v).1 with
  | false =>
    simp only [hq, Bool.false_eq_true, if_false]
    exact ⟨hxs ▸ hx, hys ▸ hy⟩
  | true =>
    simp only [hq, if_true]
    rw [call_after_swap_reserve_x, call_after_swap_reserve_y]
    constructor
    · show (F64.add (p.quote_sell_x v).2.reserve_x v).nonnegFin = true
      rw [hxs, hcv, hdx]
      simp only [F64.add, F64.nonnegFin, decide_eq_true_eq]
      linarith
    · show (F64.sub (p.quote_sell_x v).2.reserve_y (p.quote_sell_x v).1).nonnegFin = true
      rw [hys, hq1, hb1, sub_finite]
      simp only [F64.nonnegFin, decide_eq_true_eq]
      linarith

/-- One safe operation preserves non-negative reserves. -/
theorem applyOp_nonneg (p : BpfAmm) (op : Op)
    (hx : p.reserve_x.nonnegFin = true) (hy : p.reserve_y.nonnegFin = true)
    (hs : safeOp p op = true) :
    (applyOp p op).reserve_x.nonnegFin = true ∧
    (applyOp p op).reserve_y.nonnegFin = true := by
  cases op with
  | quoteBuy v =>
    obtain ⟨_, h1, h2⟩ := quote_buy_x_frame p v
    exact ⟨h1 ▸ hx, h2 ▸ hy⟩
  | quoteSell v =>
    obtain ⟨_, h1, h2⟩ := quote_sell_x_frame p v
    exact ⟨h1 ▸ hx, h2 ▸ hy⟩
  | execBuy v =>
    rw [safeOp, Bool.and_eq_true] at hs
    exact execute_buy_x_nonneg_step p v hx hy hs.1 hs.2
  | execSell v =>
    rw [safeOp, Bool.and_eq_true] at hs
    exact execute_sell_x_nonneg_step p v hx hy hs.1 hs.2
  | reset rx ry =>
    rw [safeOp, Bool.and_eq_true] at hs
    exact ⟨hs.1, hs.2⟩

/-- C4 (amended): starting from a pool with non-negative finite reserves,
any sequence of quote, execute and reset operations keeps both reserves
non-negative, provided each execute input is a non-negative finite value
whose quoted output does not exceed the reserve it is subtracted from, and
each reset argument is non-negative finite.  (Without the output bound the
property fails, see the counterexample.) -/
theorem reserves_nonneg_of_safe_ops (p : BpfAmm) (ops : List Op)
    (hx : p.reserve_x.nonnegFin = true) (hy : p.reserve_y.nonnegFin = true)
    (hs : safeSeq p ops = true) :
    (applyOps p ops).reserve_x.nonnegFin = true ∧
    (applyOps p ops).reserve_y.nonnegFin = true := by
  induction ops generalizing p with
  | nil => exact ⟨hx, hy⟩
  | cons op ops ih =>
    rw [safeSeq, Bool.and_eq_true] at hs
    obtain ⟨hx', hy'⟩ := applyOp_nonneg p op hx hy hs.1
    exact ih (applyOp p op) hx' hy' hs.2

/-- C4 witness: the safe sequence `ops4` on the concrete pool `pool4`. -/
theorem reserves_nonneg_of_safe_ops_witness :
    pool4.reserve_x.nonnegFin = true ∧ pool4.reserve_y.nonnegFin = true ∧
    safeSeq pool4 ops4 = true ∧
    ((applyOps pool4 ops4).reserve_x.nonnegFin = true ∧
      (applyOps pool4 ops4).reserve_y.nonnegFin = true) :=
  ⟨by decide, by decide, by decide,
    reserves_nonneg_of_safe_ops pool4 ops4 (by decide) (by decide) (by decide)⟩

/-- C4 counterexample: `pool4bad` is constructed with non-negative reserves
`(100, 10000)`, yet a single `execute_buy_x(10)` leaves
`reserve_x = -100`, because the bound executor returns the u64 output
200·10⁹ (200.0) and `amm.rs` subtracts it without bounding it by the
reserve. -/
theorem reserves_negative_after_large_output :
    (pool4bad.execute_buy_x (F64.finite 10)).2.reserve_x = F64.finite (-100) ∧
    (pool4bad.execute_buy_x (F64.finite 10)).2.reserve_x.nonnegFin = false := by
  exact ⟨by decide, by decide⟩

end ConcreteEvaluation

end PropAmm
